import Mathlib

/-!
Verification development for the toster test-execution engine
(`src/testing_utils.rs`, `src/temp_files.rs`).

The Rust code is shallowly embedded: pure logic is translated directly,
while effects (process spawning, `wait_timeout`, file reads) become
explicit parameters carrying the observed outcome of the effect.  Paths
that panic (`expect`/`unwrap`) or suspend forever (the
`thread::sleep(u64::MAX)` on an interrupt signal) are modelled as `none`
of an `Option` result: they never return a value to the caller.

Modelling conventions, noted where they matter:
* Rust `f64` values (elapsed times, the sio2jail time field) are modelled
  as exact rationals; IEEE rounding is abstracted away.
* Rust `char::is_whitespace` (Unicode) is modelled by `Char.isWhitespace`
  (ASCII whitespace); the difference is invisible to every claim.
* String indices count characters, not UTF-8 bytes.
* Terminal styling (the `colored` and `comfy_table` crates) is excluded
  from the core per the specification; `.red()` is modelled as the
  identity and the diff table is modelled by its structured row content.
-/

namespace Toster

abbrev FilePath := String

/-- Model of `test_result::ExecutionError` (a closed tagged union). -/
inductive ExecutionError where
  | RuntimeError (message : String)
  | TimedOut
  | InvalidOutput
  | MemoryLimitExceeded
  | Sio2jailError (message : String)
  | IncorrectCheckerFormat (message : String)
deriving DecidableEq, Repr

/-- Model of `test_result::ExecutionResult`. -/
structure ExecutionResult where
  time_seconds : ℚ
  memory_kilobytes : Option Int
deriving DecidableEq, Repr

/-- Model of `TestResult` (the externally visible verdict of one test). -/
inductive TestResult where
  | Correct (test_name : String)
  | Incorrect (test_name : String) (error : String)
  | ProgramError (test_name : String) (error : ExecutionError)
  | CheckerError (test_name : String) (error : ExecutionError)
  | NoOutputFile (test_name : String)
deriving DecidableEq, Repr

deriving instance DecidableEq for Except

/-- Outcome of `std::process::ExitStatus` for a reaped child: either a
normal exit code (`status.code() = Some c`) or termination by a signal
(`status.code() = None`, `status.signal() = Some s` on Unix). -/
inductive ExitStatus where
  | code (c : Int)
  | signal (s : Int)
deriving DecidableEq, Repr

/-- Model of the Display text of `ExitStatus` used inside runtime error
messages.  The exact OS-provided wording is irrelevant to every claim;
the Unix shape is used. -/
def statusString : ExitStatus → String
  | .code c => "exit status: " ++ toString c
  | .signal s => "signal: " ++ toString s

/-- Stand-in for Rust `char::is_whitespace` (Unicode White_Space); the
ASCII whitespace set suffices for every string the claims touch. -/
def rustIsWhitespace (c : Char) : Bool := c.isWhitespace

/-- Characters of a string with trailing whitespace removed (Rust
`str::trim_end`). -/
def trimEndChars (l : List Char) : List Char :=
  (l.reverse.dropWhile rustIsWhitespace).reverse

/-- Characters of a string with leading and trailing whitespace removed
(Rust `str::trim`). -/
def trimChars (l : List Char) : List Char :=
  trimEndChars (l.dropWhile rustIsWhitespace)

/-- Model of Rust `str::trim`. -/
def rustTrim (s : String) : String := String.mk (trimChars s.toList)

/-- Accumulator loop of `splitWhitespace`: the current word is carried
reversed. -/
def splitWhitespaceGo : List Char → List Char → List String
  | [], acc => if acc = [] then [] else [String.mk acc.reverse]
  | c :: rest, acc =>
    if rustIsWhitespace c then
      (if acc = [] then [] else [String.mk acc.reverse]) ++ splitWhitespaceGo rest []
    else splitWhitespaceGo rest (c :: acc)

/-- Model of Rust `str::split_whitespace`: maximal whitespace-free runs,
no empty pieces. -/
def splitWhitespace (s : String) : List String := splitWhitespaceGo s.toList []

/-- One trailing carriage return removed, the `\x0d\x0a` handling of
Rust `str::lines`. -/
def stripTrailingCR (l : List Char) : List Char :=
  if l.getLast? = some '\x0d' then l.dropLast else l

/-- Accumulator loop of `rustLines`: the current line is carried
reversed; a final segment without terminator keeps its carriage
return. -/
def rustLinesGo : List Char → List Char → List String
  | [], acc => if acc = [] then [] else [String.mk acc.reverse]
  | c :: rest, acc =>
    if c = '\n' then String.mk (stripTrailingCR acc.reverse) :: rustLinesGo rest []
    else rustLinesGo rest (c :: acc)

/-- Model of Rust `str::lines`: split at newline terminators (a carriage
return before the newline is dropped), the final terminator optional. -/
def rustLines (s : String) : List String := rustLinesGo s.toList []

/-- Digits of a numeral folded into a natural number. -/
def digitsToNat (l : List Char) : Nat :=
  l.foldl (fun n c => n * 10 + (c.toNat - '0'.toNat)) 0

/-- Model of Rust `str::parse::<i64>()`: optional sign then digits.
Overflow is abstracted away (sio2jail memory fields are small). -/
def parseInt (s : String) : Option Int :=
  let core : List Char → Option Int := fun l =>
    if !l.isEmpty && l.all Char.isDigit then some (digitsToNat l : Int) else none
  match s.toList with
  | '-' :: rest => (core rest).map Neg.neg
  | '+' :: rest => core rest
  | l => core l

/-- Model of Rust `str::parse::<f64>()` restricted to plain decimal
numerals `[sign] digits [. digits]`, producing an exact rational.  The
sio2jail report only ever holds such numerals; IEEE rounding and the
exotic forms accepted by the real parser are abstracted away. -/
def parseDecimal (s : String) : Option ℚ :=
  let core : List Char → Option ℚ := fun l =>
    let ip := l.takeWhile (fun c => c != '.')
    let rest := l.dropWhile (fun c => c != '.')
    match rest with
    | [] => if !ip.isEmpty && ip.all Char.isDigit then some (digitsToNat ip : ℚ) else none
    | _ :: frac =>
      if (!ip.isEmpty || !frac.isEmpty) && ip.all Char.isDigit && frac.all Char.isDigit then
        some (mkRat (digitsToNat (ip ++ frac)) (10 ^ frac.length))
      else none
  match s.toList with
  | '-' :: rest => (core rest).map Neg.neg
  | '+' :: rest => core rest
  | l => core l

/-- Model of `generate_output_default` (`testing_utils.rs` lines 121-155).
Effect parameters: `wait` is the `wait_timeout` outcome (`none` means the
child did not exit within `timeout` seconds and was killed), `elapsed` is
the measured wall-clock time `time_before_run.elapsed()`.  The source
measures `elapsed` separately at each return site; the instants differ
only by bookkeeping and are modelled as one value.  A termination signal
equal to 2 makes the worker sleep forever (no value is returned),
modelled as `none`. -/
def generate_output_default (timeout : Nat) (wait : Option ExitStatus) (elapsed : ℚ) :
    Option (ExecutionResult × Except ExecutionError Unit) :=
  match wait with
  | some status =>
    match status with
    | .signal s =>
      if s = 2 then none
      else
        some ({ time_seconds := elapsed, memory_kilobytes := none },
          .error (.RuntimeError
            ("- the process was terminated with the following error:\n" ++ statusString (.signal s))))
    | .code c =>
      if c ≠ 0 then
        some ({ time_seconds := elapsed, memory_kilobytes := none },
          .error (.RuntimeError ("- the program returned a non-zero return code: " ++ toString c)))
      else
        some ({ time_seconds := elapsed, memory_kilobytes := none }, .ok ())
  | none =>
    some ({ time_seconds := (timeout : ℚ), memory_kilobytes := none }, .error .TimedOut)

/-- The out-of-memory allocator abort text recognized on sio2jail stderr
(`testing_utils.rs` line 189). -/
def oomMessage : String :=
  "terminate called after throwing an instance of \x27std::bad_alloc\x27\n  what():  std::bad_alloc\n"

/-- The final status-token match of `generate_output_sio2jail`
(`testing_utils.rs` lines 219-226), factored out of the embedding. -/
def sio2jailStatusVerdict (sio2jail_status : String) (error_message : Option String) :
    Except ExecutionError Unit :=
  if sio2jail_status = "OK" then .ok ()
  else if sio2jail_status = "RE" ∨ sio2jail_status = "RV" then
    .error (.RuntimeError (match error_message with
      | none => ""
      | some m => "- " ++ m))
  else if sio2jail_status = "TLE" then .error .TimedOut
  else if sio2jail_status = "MLE" then .error .MemoryLimitExceeded
  else if sio2jail_status = "OLE" then .error (.RuntimeError "- output limit exceeded")
  else .error (.Sio2jailError ("Sio2jail returned an invalid status in the output: " ++ sio2jail_status))

/-- Model of `generate_output_sio2jail` (`testing_utils.rs` lines 157-227).
Effect parameters: `wait` is the `wait_timeout` outcome on the sio2jail
child, `error_output` is the content of the captured sio2jail stderr
file, `sio2jail_output` is the content of the report file bound to file
descriptor 3.  Panicking paths (a report field that fails to parse) and
the interrupt-signal sleep are modelled as `none`. -/
def generate_output_sio2jail (timeout memory_limit : Nat) (wait : Option ExitStatus)
    (error_output sio2jail_output : String) :
    Option (ExecutionResult × Except ExecutionError Unit) :=
  match wait with
  | none =>
    some ({ time_seconds := (timeout : ℚ), memory_kilobytes := none }, .error .TimedOut)
  | some status =>
    if error_output ≠ "" then
      if error_output = oomMessage then
        some ({ time_seconds := 0, memory_kilobytes := some (memory_limit : Int) },
          .error .MemoryLimitExceeded)
      else
        some ({ time_seconds := 0, memory_kilobytes := none }, .error (.Sio2jailError error_output))
    else
      let split := splitWhitespace sio2jail_output
      if split.length < 6 then
        some ({ time_seconds := 0, memory_kilobytes := none },
          .error (.Sio2jailError ("The sio2jail output is too short: " ++ sio2jail_output)))
      else
        match parseDecimal (split.getD 2 ""), parseInt (split.getD 4 "") with
        | some time_ms, some memory_kilobytes =>
          let time_seconds := time_ms / 1000
          let error_message := (rustLines sio2jail_output).get? 1
          match status with
          | .signal s =>
            if s = 2 then none
            else
              some ({ time_seconds := time_seconds, memory_kilobytes := some memory_kilobytes },
                .error (.RuntimeError
                  ("- the process was terminated with the following error:\n" ++ statusString (.signal s))))
          | .code c =>
            if c ≠ 0 then
              some ({ time_seconds := time_seconds, memory_kilobytes := some memory_kilobytes },
                .error (.Sio2jailError ("Sio2jail returned an invalid status code: " ++ toString c)))
            else
              some ({ time_seconds := time_seconds, memory_kilobytes := some memory_kilobytes },
                sio2jailStatusVerdict (split.getD 0 "") error_message)
        | _, _ => none

/-- Outcome of `Command::spawn` followed by `wait_timeout` for the
compiler child (`compile_cpp`): the spawn itself can fail with a
not-found error kind or some other I/O error; a spawned child either
exits (with a code or by signal) or outlives the timeout (`none`). -/
inductive SpawnOutcome where
  | errNotFound
  | errOther (message : String)
  | spawned (wait : Option ExitStatus)
deriving DecidableEq, Repr

/-- Model of `compile_cpp` (`testing_utils.rs` lines 73-119).
`source_stem` is `source_code_file.file_stem()`, `tempdir_path` the
scratch directory; the executable path is their join with an `.o`
suffix.  `compiler_stderr` is the content of the scratch file attached
to the compiler child as stderr, `elapsed` the measured wall-clock
compile time.  A signal-terminated compiler makes `status.code()`
panic via `expect`, modelled as `none`. -/
def compile_cpp (source_stem tempdir_path : String) (_compile_timeout : Nat)
    (spawn : SpawnOutcome) (compiler_stderr : String) (elapsed : ℚ) :
    Option (Except String (String × ℚ)) :=
  let executable_file := tempdir_path ++ "/" ++ source_stem ++ ".o"
  match spawn with
  | .errNotFound => some (.error "The compiler was not found!")
  | .errOther message => some (.error message)
  | .spawned none => some (.error "Compilation timed out")
  | .spawned (some (.signal _)) => none
  | .spawned (some (.code c)) =>
    if c ≠ 0 then some (.error compiler_stderr)
    else some (.ok (executable_file, elapsed))

/-- Model of `checker_verify` (`testing_utils.rs` lines 229-287).
Effect parameters: `wait` is the `wait_timeout` outcome on the checker
child, `checker_output` the content of the checker output scratch file.
The checker input file plumbing carries no information relevant to the
verdict and is modelled away.  `.red()` terminal styling is modelled as
the identity; string length counts characters rather than UTF-8 bytes
(the byte-boundary panic of `split_at` on multibyte output is not
modelled). -/
def checker_verify (test_name : String) (wait : Option ExitStatus) (checker_output : String) :
    Option TestResult :=
  match wait with
  | none => some (.CheckerError test_name .TimedOut)
  | some status =>
    match status with
    | .signal s =>
      if s = 2 then none
      else
        some (.CheckerError test_name (.RuntimeError
          ("- the process was terminated with the following error:\n" ++ statusString (.signal s))))
    | .code c =>
      if c ≠ 0 then
        some (.CheckerError test_name
          (.RuntimeError ("- the checker returned a non-zero return code: " ++ toString c)))
      else
        let chars := checker_output.toList
        if chars.length = 0 then
          some (.CheckerError test_name
            (.IncorrectCheckerFormat "the checker retured an empty file"))
        else if chars.getD 0 ' ' ≠ 'C' ∧ chars.getD 0 ' ' ≠ 'I' then
          some (.CheckerError test_name
            (.IncorrectCheckerFormat "the first character of the checker\x27s output wasn\x27t C or I"))
        else if chars.getD 0 ' ' = 'C' then
          some (.Correct test_name)
        else
          let checker_error := if chars.length > 1 then String.mk (chars.drop 2) else ""
          let error_message :=
            "Incorrect output" ++ (if rustTrim checker_error = "" then "" else ": ")
              ++ rustTrim checker_error
          some (.Incorrect test_name error_message)

/-- Model of `crossbeam_queue::ArrayQueue<PathBuf>` as used for
`TEMPFILE_POOL`: a bounded FIFO queue of paths.  `pop` takes from the
front, `push` appends at the back and fails when the queue is at
capacity (the source wraps both in `expect`, so a failure is a panic,
modelled as `none` by the callers). -/
structure Pool where
  capacity : Nat
  items : List FilePath
deriving DecidableEq, Repr

def Pool.pop (p : Pool) : Option (FilePath × Pool) :=
  match p.items with
  | [] => none
  | x :: rest => some (x, { p with items := rest })

def Pool.push (p : Pool) (x : FilePath) : Option Pool :=
  if p.items.length < p.capacity then some { p with items := p.items ++ [x] } else none

/-- Model of `fill_tempfile_pool` (`testing_utils.rs` lines 38-43):
starting from the freshly created empty queue of capacity
`num_cpus * 10`, push the paths `tempdir/tempfile-i` for
`i < num_cpus * 10`.  A failed push (`expect`) is `none`. -/
def fill_tempfile_pool (tempdir : String) (num_cpus : Nat) : Option Pool :=
  (List.range (num_cpus * 10)).foldlM
    (fun pool i => pool.push (tempdir ++ "/tempfile-" ++ toString i))
    { capacity := num_cpus * 10, items := [] }

/-- Model of `split_trim_end`, the character loop (`testing_utils.rs`
lines 367-390): walk the characters, closing the current line at each
newline with its trailing whitespace removed; a non-empty final line is
also pushed. -/
def splitLinesTrim : List Char → List Char → List String
  | [], current =>
    if current.isEmpty then [] else [String.mk (trimEndChars current)]
  | c :: rest, current =>
    if c = '\n' then String.mk (trimEndChars current) :: splitLinesTrim rest []
    else splitLinesTrim rest (current ++ [c])

/-- The final while loop of `split_trim_end`: pop lines from the back
while the last line is blank. -/
def dropTrailingBlank (l : List String) : List String :=
  (l.reverse.dropWhile (fun s => rustTrim s == "")).reverse

/-- Model of `split_trim_end` (`testing_utils.rs` lines 367-390). -/
def split_trim_end (to_split : String) : List String :=
  dropTrailingBlank (splitLinesTrim to_split.toList [])

/-- One row of the diff table: 1-based line number, the reference
(output file) segment, the program output segment. -/
structure DiffRow where
  line : Nat
  expected : String
  actual : String
deriving DecidableEq, Repr

/-- The body of one iteration of the `generate_diff` loop
(`testing_utils.rs` lines 405-417): the two positional segments (empty
past the end of a sequence) and the row emitted when they differ. -/
def diffAt (correct_split incorrect_split : List String) (i : Nat) : Option DiffRow :=
  let file_segment := correct_split.getD i ""
  let out_segment := incorrect_split.getD i ""
  if file_segment ≠ out_segment then
    some { line := i + 1, expected := file_segment, actual := out_segment }
  else none

/-- The `generate_diff` loop (`testing_utils.rs` lines 404-428) over the
remaining indices, carrying `row_count`.  The Bool is true exactly when
the truncation marker row `(..., ..., ...)` was appended before breaking
at the 99-row limit. -/
def diffRowsGo (correct_split incorrect_split : List String) :
    List Nat → Nat → List DiffRow × Bool
  | [], _ => ([], false)
  | i :: rest, row_count =>
    match diffAt correct_split incorrect_split i with
    | some row =>
      if row_count + 1 ≥ 99 then ([row], true)
      else
        let r := diffRowsGo correct_split incorrect_split rest (row_count + 1)
        (row :: r.1, r.2)
    | none =>
      if row_count ≥ 99 then ([], true)
      else
        let r := diffRowsGo correct_split incorrect_split rest row_count
        (r.1, r.2)

/-- Model of `generate_diff` (`testing_utils.rs` lines 392-431), reduced
to its structured content: the emitted rows and whether the truncation
marker row was appended.  The `comfy_table` layout (sized to the
terminal width at run time) is presentation only and is abstracted to
this content. -/
def generate_diff (correct_answer incorrect_answer : String) : List DiffRow × Bool :=
  let correct_split := split_trim_end correct_answer
  let incorrect_split := split_trim_end incorrect_answer
  diffRowsGo correct_split incorrect_split
    (List.range (max correct_split.length incorrect_split.length)) 0

/-- Deterministic rendering of the diff content carried inside an
`Incorrect` verdict (stand-in for the `comfy_table` string). -/
def diffText (d : List DiffRow × Bool) : String :=
  String.intercalate "\n"
    (d.1.map (fun r => toString r.line ++ "\t" ++ r.expected ++ "\t" ++ r.actual))
    ++ (if d.2 then "\n..." else "")

/-- Environment of one checker invocation inside `run_test`: the
`wait_timeout` outcome on the checker child and the content of the
checker output scratch file. -/
structure CheckerEnv where
  wait : Option ExitStatus
  output : String
deriving DecidableEq, Repr

/-- Effect environment of one `run_test` call: configuration
(`use_sio2jail`, `memory_limit`, `timeout`), the observed outcome of the
program child (`wait`, `elapsed`, and for sio2jail runs the captured
stderr and report file contents), the result of reading the program
output scratch file (`none` models a read error such as invalid UTF-8),
the content of the reference output file (`none` when
`<output_dir>/<test_name><out_extension>` is not a file), and the
checker environment (`none` when no checker path was given). -/
structure TestEnv where
  use_sio2jail : Bool
  memory_limit : Nat
  timeout : Nat
  wait : Option ExitStatus
  elapsed : ℚ
  sio2jailStderr : String
  sio2jailReport : String
  testOutputRead : Option String
  refOutput : Option String
  checkerRun : Option CheckerEnv
deriving DecidableEq, Repr

/-- The execution dispatch of `run_test` (`testing_utils.rs` lines
305-322): on the sio2jail path, pop two scratch paths (report file,
stderr file), run, and push both back; otherwise run directly with the
pool untouched. -/
def dispatch_generate (env : TestEnv) (pool : Pool) :
    Option ((ExecutionResult × Except ExecutionError Unit) × Pool) :=
  if env.use_sio2jail then
    match pool.pop with
    | none => none
    | some (sio2jail_output_file_path, pool1) =>
      match pool1.pop with
      | none => none
      | some (error_file_path, pool2) =>
        match generate_output_sio2jail env.timeout env.memory_limit env.wait
            env.sio2jailStderr env.sio2jailReport with
        | none => none
        | some result =>
          match pool2.push sio2jail_output_file_path with
          | none => none
          | some pool3 =>
            match pool3.push error_file_path with
            | none => none
            | some pool4 => some (result, pool4)
  else
    match generate_output_default env.timeout env.wait env.elapsed with
    | none => none
    | some result => some (result, pool)

/-- The no-checker comparison of `run_test` (`testing_utils.rs` lines
338-351): a missing reference output file yields `NoOutputFile` with a
fresh zero `ExecutionResult`; otherwise the normalized outputs are
compared. -/
def no_checker_compare (test_name test_output : String) (refOutput : Option String)
    (execution_result : ExecutionResult) : TestResult × ExecutionResult :=
  match refOutput with
  | none => (.NoOutputFile test_name, { time_seconds := 0, memory_kilobytes := none })
  | some correct_output =>
    if split_trim_end test_output = split_trim_end correct_output then
      (.Correct test_name, execution_result)
    else
      (.Incorrect test_name (diffText (generate_diff correct_output test_output)),
        execution_result)

/-- The checker branch of `run_test` (`testing_utils.rs` lines 352-364):
pop two scratch paths (checker input, checker output), run the checker,
push both back. -/
def checker_phase (test_name : String) (cenv : CheckerEnv) (pool : Pool) :
    Option (TestResult × Pool) :=
  match pool.pop with
  | none => none
  | some (checker_input_file_path, pool1) =>
    match pool1.pop with
    | none => none
    | some (checker_output_file_path, pool2) =>
      match checker_verify test_name cenv.wait cenv.output with
      | none => none
      | some tr =>
        match pool2.push checker_input_file_path with
        | none => none
        | some pool3 =>
          match pool3.push checker_output_file_path with
          | none => none
          | some pool4 => some (tr, pool4)

/-- Model of `run_test` (`testing_utils.rs` lines 289-365).  The pool is
threaded explicitly; `none` covers every panicking or suspending path
(pool exhaustion, pool overflow, a failed spawn, the interrupt-signal
sleep). -/
def run_test (test_name : String) (env : TestEnv) (pool : Pool) :
    Option ((TestResult × ExecutionResult) × Pool) :=
  match pool.pop with
  | none => none
  | some (test_output_file_path, pool1) =>
    match dispatch_generate env pool1 with
    | none => none
    | some ((execution_result, execution_error), pool2) =>
      match execution_error with
      | .error e =>
        match pool2.push test_output_file_path with
        | none => none
        | some pool3 => some ((.ProgramError test_name e, execution_result), pool3)
      | .ok _ =>
        match pool2.push test_output_file_path with
        | none => none
        | some pool3 =>
          match env.testOutputRead with
          | none => some ((.ProgramError test_name .InvalidOutput, execution_result), pool3)
          | some test_output =>
            match env.checkerRun with
            | none =>
              some (no_checker_compare test_name test_output env.refOutput execution_result,
                pool3)
            | some cenv =>
              match checker_phase test_name cenv pool3 with
              | none => none
              | some (tr, pool4) => some ((tr, execution_result), pool4)

/-! ### Pool accounting lemmas -/

theorem Pool.pop_spec {p : Pool} {x : FilePath} {p' : Pool} (h : p.pop = some (x, p')) :
    p.items = x :: p'.items ∧ p'.capacity = p.capacity := by
  unfold Pool.pop at h
  cases hi : p.items with
  | nil => simp [hi] at h
  | cons a l =>
    simp only [hi, Option.some.injEq, Prod.mk.injEq] at h
    obtain ⟨ha, hp⟩ := h
    subst ha
    subst hp
    exact ⟨rfl, rfl⟩

theorem Pool.push_spec {p : Pool} {x : FilePath} {p' : Pool} (h : p.push x = some p') :
    p'.items = p.items ++ [x] ∧ p'.capacity = p.capacity := by
  unfold Pool.push at h
  split at h
  · simp only [Option.some.injEq] at h
    subst h
    exact ⟨rfl, rfl⟩
  · simp at h

/-- Popping two paths and pushing both back returns a pool whose content
is a permutation of the original content (the two sandboxed-run scratch
files, and likewise the two checker scratch files). -/
theorem pop_pop_push_push_perm {p p1 p2 p3 p4 : Pool} {y z : FilePath}
    (h1 : p.pop = some (y, p1)) (h2 : p1.pop = some (z, p2))
    (h3 : p2.push y = some p3) (h4 : p3.push z = some p4) :
    p4.items.Perm p.items ∧ p4.capacity = p.capacity := by
  obtain ⟨hi1, hc1⟩ := Pool.pop_spec h1
  obtain ⟨hi2, hc2⟩ := Pool.pop_spec h2
  obtain ⟨hi3, hc3⟩ := Pool.push_spec h3
  obtain ⟨hi4, hc4⟩ := Pool.push_spec h4
  constructor
  · rw [hi4, hi3, hi1, hi2]
    exact (List.perm_append_singleton z (p2.items ++ [y])).trans
      (((List.perm_append_singleton y p2.items).cons z).trans (List.Perm.swap y z p2.items))
  · rw [hc4, hc3, hc2, hc1]

theorem dispatch_generate_perm {env : TestEnv} {pool : Pool}
    {r : ExecutionResult × Except ExecutionError Unit} {pool' : Pool}
    (h : dispatch_generate env pool = some (r, pool')) :
    pool'.items.Perm pool.items ∧ pool'.capacity = pool.capacity := by
  unfold dispatch_generate at h
  split at h
  · cases h1 : pool.pop with
    | none => simp [h1] at h
    | some v1 =>
      obtain ⟨y, pool1⟩ := v1
      simp only [h1] at h
      cases h2 : pool1.pop with
      | none => simp [h2] at h
      | some v2 =>
        obtain ⟨z, pool2⟩ := v2
        simp only [h2] at h
        cases h3 : generate_output_sio2jail env.timeout env.memory_limit env.wait
            env.sio2jailStderr env.sio2jailReport with
        | none => simp [h3] at h
        | some result =>
          simp only [h3] at h
          cases h4 : pool2.push y with
          | none => simp [h4] at h
          | some pool3 =>
            simp only [h4] at h
            cases h5 : pool3.push z with
            | none => simp [h5] at h
            | some pool4 =>
              simp only [h5, Option.some.injEq, Prod.mk.injEq] at h
              obtain ⟨-, hp⟩ := h
              subst hp
              exact pop_pop_push_push_perm h1 h2 h4 h5
  · cases h1 : generate_output_default env.timeout env.wait env.elapsed with
    | none => simp [h1] at h
    | some result =>
      simp only [h1, Option.some.injEq, Prod.mk.injEq] at h
      obtain ⟨-, hp⟩ := h
      subst hp
      exact ⟨List.Perm.refl _, rfl⟩

theorem checker_phase_perm {test_name : String} {cenv : CheckerEnv} {pool : Pool}
    {tr : TestResult} {pool' : Pool}
    (h : checker_phase test_name cenv pool = some (tr, pool')) :
    pool'.items.Perm pool.items ∧ pool'.capacity = pool.capacity := by
  unfold checker_phase at h
  cases h1 : pool.pop with
  | none => simp [h1] at h
  | some v1 =>
    obtain ⟨y, pool1⟩ := v1
    simp only [h1] at h
    cases h2 : pool1.pop with
    | none => simp [h2] at h
    | some v2 =>
      obtain ⟨z, pool2⟩ := v2
      simp only [h2] at h
      cases h3 : checker_verify test_name cenv.wait cenv.output with
      | none => simp [h3] at h
      | some tr0 =>
        simp only [h3] at h
        cases h4 : pool2.push y with
        | none => simp [h4] at h
        | some pool3 =>
          simp only [h4] at h
          cases h5 : pool3.push z with
          | none => simp [h5] at h
          | some pool4 =>
            simp only [h5, Option.some.injEq, Prod.mk.injEq] at h
            obtain ⟨-, hp⟩ := h
            subst hp
            exact pop_pop_push_push_perm h1 h2 h4 h5

/-- Every returning path of `run_test` leaves the pool content a
permutation of what it was, with the capacity unchanged. -/
theorem run_test_perm_aux {test_name : String} {env : TestEnv} {pool : Pool}
    {res : TestResult × ExecutionResult} {pool' : Pool}
    (h : run_test test_name env pool = some (res, pool')) :
    pool'.items.Perm pool.items ∧ pool'.capacity = pool.capacity := by
  unfold run_test at h
  cases h1 : pool.pop with
  | none => simp [h1] at h
  | some v1 =>
    obtain ⟨tofp, pool1⟩ := v1
    simp only [h1] at h
    obtain ⟨hi1, hc1⟩ := Pool.pop_spec h1
    cases h2 : dispatch_generate env pool1 with
    | none => simp [h2] at h
    | some v2 =>
      obtain ⟨⟨execution_result, execution_error⟩, pool2⟩ := v2
      simp only [h2] at h
      obtain ⟨hperm2, hcap2⟩ := dispatch_generate_perm h2
      have base : ∀ {pool3 : Pool}, pool2.push tofp = some pool3 →
          pool3.items.Perm pool.items ∧ pool3.capacity = pool.capacity := by
        intro pool3 h3
        obtain ⟨hi3, hc3⟩ := Pool.push_spec h3
        refine ⟨?_, by rw [hc3, hcap2, hc1]⟩
        rw [hi3, hi1]
        exact (List.perm_append_singleton tofp pool2.items).trans (hperm2.cons tofp)
      cases execution_error with
      | error e =>
        cases h3 : pool2.push tofp with
        | none => simp [h3] at h
        | some pool3 =>
          simp only [h3, Option.some.injEq, Prod.mk.injEq] at h
          obtain ⟨-, hp⟩ := h
          subst hp
          exact base h3
      | ok u =>
        cases h3 : pool2.push tofp with
        | none => simp [h3] at h
        | some pool3 =>
          simp only [h3] at h
          cases hread : env.testOutputRead with
          | none =>
            simp only [hread, Option.some.injEq, Prod.mk.injEq] at h
            obtain ⟨-, hp⟩ := h
            subst hp
            exact base h3
          | some test_output =>
            simp only [hread] at h
            cases hchk : env.checkerRun with
            | none =>
              simp only [hchk, Option.some.injEq, Prod.mk.injEq] at h
              obtain ⟨-, hp⟩ := h
              subst hp
              exact base h3
            | some cenv =>
              simp only [hchk] at h
              cases h4 : checker_phase test_name cenv pool3 with
              | none => simp [h4] at h
              | some v4 =>
                obtain ⟨tr, pool4⟩ := v4
                simp only [h4, Option.some.injEq, Prod.mk.injEq] at h
                obtain ⟨-, hp⟩ := h
                subst hp
                obtain ⟨hperm4, hcap4⟩ := checker_phase_perm h4
                obtain ⟨hb1, hb2⟩ := base h3
                exact ⟨hperm4.trans hb1, by rw [hcap4, hb2]⟩

/-! ### Claims -/

/-- C1: on every returning (non-panicking) path of the top-level
run-one-test operation — program error, missing reference output, direct
comparison, and checker paths, sandboxed or not — the scratch paths
popped from the pool are exactly balanced by the paths pushed back: the
final pool content is a permutation of the initial content with the
capacity unchanged, so a pool that started with its full initial
capacity of distinct paths again holds exactly that many paths, none
leaked and none present twice. -/
theorem C1_run_test_pool_balanced (test_name : String) (env : TestEnv) (pool : Pool)
    (res : TestResult × ExecutionResult) (pool' : Pool)
    (h : run_test test_name env pool = some (res, pool')) :
    pool'.items.Perm pool.items ∧ pool'.items.length = pool.items.length ∧
      pool'.capacity = pool.capacity ∧ (pool.items.Nodup → pool'.items.Nodup) := by
  obtain ⟨hperm, hcap⟩ := run_test_perm_aux h
  exact ⟨hperm, hperm.length_eq, hcap, fun hn => hperm.nodup_iff.mpr hn⟩

def envC1 : TestEnv :=
  { use_sio2jail := false, memory_limit := 2500, timeout := 5, wait := some (.code 0),
    elapsed := 1, sio2jailStderr := "", sio2jailReport := "",
    testOutputRead := some "x\n", refOutput := none,
    checkerRun := some { wait := some (.code 0), output := "C" } }

def poolC1 : Pool := { capacity := 5, items := ["a", "b", "c", "d", "e"] }

def poolC1' : Pool := { capacity := 5, items := ["d", "e", "a", "b", "c"] }

theorem C1_run_test_pool_balanced_witness :
    run_test "t" envC1 poolC1
        = some ((.Correct "t", { time_seconds := 1, memory_kilobytes := none }), poolC1') ∧
      poolC1'.items.Perm poolC1.items ∧ poolC1'.items.length = poolC1.items.length ∧
      poolC1'.capacity = poolC1.capacity ∧ (poolC1.items.Nodup → poolC1'.items.Nodup) :=
  ⟨by decide,
    C1_run_test_pool_balanced "t" envC1 poolC1
      (.Correct "t", { time_seconds := 1, memory_kilobytes := none }) poolC1' (by decide)⟩

/-- C3: for a checker run that exits with code 0 within the timeout, an
empty checker output, or an output whose first character is neither C
nor I, yields a `CheckerError` carrying `IncorrectCheckerFormat`, while
a first character C yields `Correct`. -/
theorem C3_checker_verdict_protocol (test_name checker_output : String) :
    (checker_output = "" →
      checker_verify test_name (some (.code 0)) checker_output
        = some (.CheckerError test_name
            (.IncorrectCheckerFormat "the checker retured an empty file"))) ∧
    (∀ c0, checker_output.toList.head? = some c0 → c0 ≠ 'C' → c0 ≠ 'I' →
      checker_verify test_name (some (.code 0)) checker_output
        = some (.CheckerError test_name
            (.IncorrectCheckerFormat
              "the first character of the checker\x27s output wasn\x27t C or I"))) ∧
    (checker_output.toList.head? = some 'C' →
      checker_verify test_name (some (.code 0)) checker_output
        = some (.Correct test_name)) := by
  refine ⟨fun hemp => ?_, fun c0 hhead hC hI => ?_, fun hhead => ?_⟩
  · subst hemp; rfl
  · cases hl : checker_output.toList with
    | nil => rw [hl] at hhead; exact absurd hhead (by simp)
    | cons a t =>
      rw [hl] at hhead
      simp only [List.head?_cons, Option.some.injEq] at hhead
      subst hhead
      have hd : checker_output.data = a :: t := hl
      simp [checker_verify, String.length, hd, hC, hI]
  · cases hl : checker_output.toList with
    | nil => rw [hl] at hhead; exact absurd hhead (by simp)
    | cons a t =>
      rw [hl] at hhead
      simp only [List.head?_cons, Option.some.injEq] at hhead
      subst hhead
      have hd : checker_output.data = 'C' :: t := hl
      simp [checker_verify, String.length, hd]

theorem C3_checker_verdict_protocol_witness :
    checker_verify "t" (some (.code 0)) "X"
      = some (.CheckerError "t"
          (.IncorrectCheckerFormat
            "the first character of the checker\x27s output wasn\x27t C or I")) :=
  (C3_checker_verdict_protocol "t" "X").2.1 'X' (by decide) (by decide) (by decide)

/-- C4, counterexample to the claim as stated: for a checker run exiting
with code 0 and output "I: bad" the `Incorrect` verdict does not carry
the message "bad"; the attached message is "Incorrect output: bad". -/
theorem C4_incorrect_counterexample :
    checker_verify "t" (some (.code 0)) "I: bad"
        = some (.Incorrect "t" "Incorrect output: bad") ∧
      checker_verify "t" (some (.code 0)) "I: bad" ≠ some (.Incorrect "t" "bad") := by
  exact ⟨by decide, by decide⟩

/-- C4, amended: for a checker run exiting with code 0 within the
timeout whose output starts with I, the verdict is `Incorrect`, and the
attached message is "Incorrect output", extended — when the remainder of
the output starting at the third character is non-blank after trimming —
by ": " and that trimmed remainder (so for output "I: bad" the message
is "Incorrect output: bad"). -/
theorem C4_incorrect_message (test_name checker_output r : String)
    (hhead : checker_output.toList.head? = some 'I')
    (hr : r = if checker_output.toList.length > 1 then
        String.mk (checker_output.toList.drop 2) else "") :
    checker_verify test_name (some (.code 0)) checker_output
      = some (.Incorrect test_name
          ("Incorrect output" ++ (if rustTrim r = "" then "" else ": ") ++ rustTrim r)) := by
  cases hl : checker_output.toList with
  | nil => rw [hl] at hhead; exact absurd hhead (by simp)
  | cons a t =>
    rw [hl] at hhead
    simp only [List.head?_cons, Option.some.injEq] at hhead
    subst hhead
    rw [hl] at hr
    subst hr
    have hd : checker_output.data = 'I' :: t := hl
    simp [checker_verify, String.length, hd]

theorem C4_incorrect_message_witness :
    checker_verify "t" (some (.code 0)) "I: bad"
      = some (.Incorrect "t" "Incorrect output: bad") := by
  have h := C4_incorrect_message "t" "I: bad" " bad" (by decide) (by decide)
  exact h.trans (by decide)

/-- C6: a sandboxed run that finishes within the timeout and whose
captured sandbox stderr is non-empty is classified from that stderr
alone: the recognized out-of-memory allocator abort text becomes
`MemoryLimitExceeded` with zero elapsed time and the configured memory
limit as the observed memory, any other non-empty stderr becomes a
`Sio2jailError` carrying the stderr text, and the report file content is
never consulted. -/
theorem C6_sio2jail_stderr (timeout memory_limit : Nat) (status : ExitStatus)
    (error_output report : String) (hne : error_output ≠ "") :
    (error_output = oomMessage →
      generate_output_sio2jail timeout memory_limit (some status) error_output report
        = some ({ time_seconds := 0, memory_kilobytes := some (memory_limit : Int) },
            .error .MemoryLimitExceeded)) ∧
    (error_output ≠ oomMessage →
      generate_output_sio2jail timeout memory_limit (some status) error_output report
        = some ({ time_seconds := 0, memory_kilobytes := none },
            .error (.Sio2jailError error_output))) ∧
    (∀ report₂, generate_output_sio2jail timeout memory_limit (some status) error_output report
        = generate_output_sio2jail timeout memory_limit (some status) error_output report₂) := by
  have key : ∀ rep : String,
      generate_output_sio2jail timeout memory_limit (some status) error_output rep
        = if error_output = oomMessage then
            some ({ time_seconds := 0, memory_kilobytes := some (memory_limit : Int) },
              .error .MemoryLimitExceeded)
          else
            some ({ time_seconds := 0, memory_kilobytes := none },
              .error (.Sio2jailError error_output)) := by
    intro rep
    simp only [generate_output_sio2jail]
    rw [if_pos hne]
  refine ⟨fun hoom => ?_, fun hnoom => ?_, fun report₂ => ?_⟩
  · rw [key, if_pos hoom]
  · rw [key, if_neg hnoom]
  · rw [key, key]

theorem C6_sio2jail_stderr_witness :
    generate_output_sio2jail 5 2500 (some (.code 0)) "boom" "OK 0 100 0 2500 0"
      = some ({ time_seconds := 0, memory_kilobytes := none },
          .error (.Sio2jailError "boom")) :=
  (C6_sio2jail_stderr 5 2500 (.code 0) "boom" "OK 0 100 0 2500 0" (by decide)).2.1 (by decide)

/-- C7: a direct (unsandboxed) run whose child does not exit within the
timeout is killed and reported as `TimedOut`, with `time_seconds` equal
to the timeout value itself — independent of any measured elapsed time —
and no memory measurement. -/
theorem C7_default_timeout (timeout : Nat) (elapsed : ℚ) :
    generate_output_default timeout none elapsed
        = some ({ time_seconds := (timeout : ℚ), memory_kilobytes := none },
            .error .TimedOut) ∧
      ∀ elapsed₂ : ℚ, generate_output_default timeout none elapsed
          = generate_output_default timeout none elapsed₂ :=
  ⟨rfl, fun _ => rfl⟩

/-- C2, counterexample to the claim as stated: a sandboxed run whose
report parses to six fields with status OK and whose sandbox process
exits with code 0, but whose captured sandbox stderr is non-empty, is
classified from the stderr as a `Sio2jailError` — not mapped from the
report status to success. -/
theorem C2_status_mapping_counterexample :
    generate_output_sio2jail 5 2500 (some (.code 0)) "boom" "OK 0 100 0 2500 0"
        = some ({ time_seconds := 0, memory_kilobytes := none },
            .error (.Sio2jailError "boom")) ∧
      (Except.error (ExecutionError.Sio2jailError "boom") : Except ExecutionError Unit)
        ≠ .ok () :=
  ⟨by decide, by decide⟩

/-- C2, amended: for a sandboxed run whose captured sandbox stderr is
empty and whose sandbox process exits with code 0, a report of at least
six whitespace-separated fields is mapped by its status field exactly
as: OK to success, RE or RV to `RuntimeError` (optionally carrying the
second report line), TLE to `TimedOut`, MLE to `MemoryLimitExceeded`,
OLE to `RuntimeError`, and any other token to a `Sio2jailError` carrying
the raw token; in all of these cases the `ExecutionResult` carries field
2 converted from milliseconds to seconds and field 4 as kilobytes
(including the MLE case), while a report of fewer than six fields yields
a malformed-report `Sio2jailError`. -/
theorem C2_report_status_mapping (timeout memory_limit : Nat) (report : String)
    (s0 s1 s2 s3 s4 s5 : String) (rest : List String) (t : ℚ) (m : Int)
    (hsplit : splitWhitespace report = s0 :: s1 :: s2 :: s3 :: s4 :: s5 :: rest)
    (ht : parseDecimal s2 = some t) (hm : parseInt s4 = some m) :
    (s0 = "OK" →
      generate_output_sio2jail timeout memory_limit (some (.code 0)) "" report
        = some ({ time_seconds := t / 1000, memory_kilobytes := some m }, .ok ())) ∧
    (s0 = "RE" ∨ s0 = "RV" →
      generate_output_sio2jail timeout memory_limit (some (.code 0)) "" report
        = some ({ time_seconds := t / 1000, memory_kilobytes := some m },
            .error (.RuntimeError (match (rustLines report).get? 1 with
              | none => ""
              | some msg => "- " ++ msg)))) ∧
    (s0 = "TLE" →
      generate_output_sio2jail timeout memory_limit (some (.code 0)) "" report
        = some ({ time_seconds := t / 1000, memory_kilobytes := some m },
            .error .TimedOut)) ∧
    (s0 = "MLE" →
      generate_output_sio2jail timeout memory_limit (some (.code 0)) "" report
        = some ({ time_seconds := t / 1000, memory_kilobytes := some m },
            .error .MemoryLimitExceeded)) ∧
    (s0 = "OLE" →
      generate_output_sio2jail timeout memory_limit (some (.code 0)) "" report
        = some ({ time_seconds := t / 1000, memory_kilobytes := some m },
            .error (.RuntimeError "- output limit exceeded"))) ∧
    (s0 ≠ "OK" → s0 ≠ "RE" → s0 ≠ "RV" → s0 ≠ "TLE" → s0 ≠ "MLE" → s0 ≠ "OLE" →
      generate_output_sio2jail timeout memory_limit (some (.code 0)) "" report
        = some ({ time_seconds := t / 1000, memory_kilobytes := some m },
            .error (.Sio2jailError
              ("Sio2jail returned an invalid status in the output: " ++ s0)))) ∧
    (∀ report₂ : String, (splitWhitespace report₂).length < 6 →
      generate_output_sio2jail timeout memory_limit (some (.code 0)) "" report₂
        = some ({ time_seconds := 0, memory_kilobytes := none },
            .error (.Sio2jailError ("The sio2jail output is too short: " ++ report₂)))) := by
  have key : generate_output_sio2jail timeout memory_limit (some (.code 0)) "" report
      = some ({ time_seconds := t / 1000, memory_kilobytes := some m },
          sio2jailStatusVerdict s0 ((rustLines report).get? 1)) := by
    simp only [generate_output_sio2jail]
    rw [if_neg (not_not_intro rfl)]
    simp only [hsplit, List.length_cons, List.getD_cons_succ, List.getD_cons_zero]
    rw [if_neg (by omega)]
    simp only [ht, hm]
    simp
  refine ⟨fun h0 => ?_, fun h0 => ?_, fun h0 => ?_, fun h0 => ?_, fun h0 => ?_,
    fun h1 h2 h3 h4 h5 h6 => ?_, fun report₂ hshort => ?_⟩
  · rw [key]; subst h0; rfl
  · rw [key]
    cases h0 with
    | inl h0 => subst h0; rfl
    | inr h0 => subst h0; rfl
  · rw [key]; subst h0; rfl
  · rw [key]; subst h0; rfl
  · rw [key]; subst h0; rfl
  · rw [key]
    simp only [sio2jailStatusVerdict, if_neg h1,
      if_neg (show ¬(s0 = "RE" ∨ s0 = "RV") from fun hc => hc.elim h2 h3),
      if_neg h4, if_neg h5, if_neg h6]
  · simp only [generate_output_sio2jail]
    rw [if_neg (not_not_intro rfl)]
    rw [if_pos hshort]

theorem C2_report_status_mapping_witness :
    generate_output_sio2jail 5 1000 (some (.code 0)) "" "MLE 0 100 0 2500 0"
      = some ({ time_seconds := (100 : ℚ) / 1000, memory_kilobytes := some 2500 },
          .error .MemoryLimitExceeded) :=
  (C2_report_status_mapping 5 1000 "MLE 0 100 0 2500 0" "MLE" "0" "100" "0" "2500" "0" []
    100 2500 (by decide) (by decide) (by decide)).2.2.2.1 rfl

/-- C5: whenever the program output and the reference output are equal
after normalization (`split_trim_end`), the no-checker path of the
run-one-test operation classifies the test as `Correct`, never
`Incorrect`. -/
theorem C5_normalized_equal_is_correct (test_name a b : String) (env : TestEnv) (pool : Pool)
    (hsio : env.use_sio2jail = false) (hwait : env.wait = some (.code 0))
    (hread : env.testOutputRead = some a) (hchk : env.checkerRun = none)
    (href : env.refOutput = some b)
    (hne : pool.items ≠ []) (hcap : pool.items.length ≤ pool.capacity)
    (hnorm : split_trim_end a = split_trim_end b) :
    ∃ pool', run_test test_name env pool
        = some ((.Correct test_name,
            { time_seconds := env.elapsed, memory_kilobytes := none }), pool') := by
  obtain ⟨x, tl, hxt⟩ : ∃ x tl, pool.items = x :: tl := by
    cases hi : pool.items with
    | nil => exact absurd hi hne
    | cons y l => exact ⟨y, l, rfl⟩
  have hlt : tl.length < pool.capacity := by
    rw [hxt] at hcap
    simpa [Nat.succ_le_iff] using hcap
  refine ⟨{ capacity := pool.capacity, items := tl ++ [x] }, ?_⟩
  simp [run_test, dispatch_generate, generate_output_default, no_checker_compare,
    Pool.pop, Pool.push, hxt, hsio, hwait, hread, hchk, href, hlt, hnorm]

def envC5 : TestEnv :=
  { use_sio2jail := false, memory_limit := 0, timeout := 5, wait := some (.code 0),
    elapsed := 1, sio2jailStderr := "", sio2jailReport := "",
    testOutputRead := some "x \n", refOutput := some "x\n\n", checkerRun := none }

theorem C5_normalized_equal_is_correct_witness :
    ∃ pool', run_test "t" envC5 { capacity := 2, items := ["p", "q"] }
        = some ((.Correct "t", { time_seconds := 1, memory_kilobytes := none }), pool') :=
  C5_normalized_equal_is_correct "t" "x \n" "x\n\n" envC5
    { capacity := 2, items := ["p", "q"] }
    rfl rfl rfl rfl rfl (by decide) (by decide) (by decide)

/-- The rows the specification describes: one row per index, up to the
longer normalized sequence, at which the two line sequences differ. -/
def diffSpecRows (correct_split incorrect_split : List String) : List DiffRow :=
  (List.range (max correct_split.length incorrect_split.length)).filterMap
    (diffAt correct_split incorrect_split)

/-- The `generate_diff` loop emits, from any starting row count below
the limit, exactly the differing rows truncated at the limit, and flags
the truncation marker exactly when the limit is reached. -/
theorem diffRowsGo_spec (cs is : List String) (idxs : List Nat) (rc : Nat) (h : rc < 99) :
    diffRowsGo cs is idxs rc
      = ((idxs.filterMap (diffAt cs is)).take (99 - rc),
          decide (99 ≤ rc + (idxs.filterMap (diffAt cs is)).length)) := by
  induction idxs generalizing rc with
  | nil =>
    simp only [diffRowsGo, List.filterMap_nil, List.take_nil, List.length_nil, Nat.add_zero]
    rw [decide_eq_false (by omega)]
  | cons i rest ih =>
    cases hd : diffAt cs is i with
    | none =>
      simp only [diffRowsGo, List.filterMap_cons, hd]
      rw [if_neg (by omega)]
      simp [ih rc h]
    | some row =>
      by_cases h99 : rc + 1 ≥ 99
      · simp only [diffRowsGo, List.filterMap_cons, hd]
        rw [if_pos h99]
        have hrc : rc = 98 := by omega
        subst hrc
        have hone : (99 : Nat) - 98 = 1 := by omega
        rw [hone, List.take_succ_cons, List.take_zero, List.length_cons]
        rw [decide_eq_true (by omega)]
      · simp only [diffRowsGo, List.filterMap_cons, hd]
        rw [if_neg h99, ih (rc + 1) (by omega)]
        have hs : 99 - rc = (99 - (rc + 1)) + 1 := by omega
        rw [hs, List.take_succ_cons, List.length_cons]
        have hadd : rc + ((List.filterMap (diffAt cs is) rest).length + 1)
            = rc + 1 + (List.filterMap (diffAt cs is) rest).length := by omega
        rw [hadd]

/-- C8: the diff renderer emits one row per index (up to the longer
normalized sequence) at which the two lines differ, truncated at 99
rows, and appends the truncation marker row exactly when the 99-row
limit is reached (that is, when at least 99 indices differ); the
example render of "1 2 3" against "1 9 3" yields exactly the single
differing row (2, "2", "9") with no marker. -/
theorem C8_diff_rows_and_marker (correct_answer incorrect_answer : String) :
    (generate_diff correct_answer incorrect_answer).1
        = (diffSpecRows (split_trim_end correct_answer)
            (split_trim_end incorrect_answer)).take 99 ∧
      ((generate_diff correct_answer incorrect_answer).2 = true ↔
        99 ≤ (diffSpecRows (split_trim_end correct_answer)
          (split_trim_end incorrect_answer)).length) ∧
      generate_diff "1\n2\n3\n" "1\n9\n3\n"
        = ([{ line := 2, expected := "2", actual := "9" }], false) := by
  have h := diffRowsGo_spec (split_trim_end correct_answer) (split_trim_end incorrect_answer)
    (List.range (max (split_trim_end correct_answer).length
      (split_trim_end incorrect_answer).length)) 0 (by omega)
  refine ⟨?_, ?_, by decide⟩
  · simp only [generate_diff, h, diffSpecRows, Nat.sub_zero]
  · simp only [generate_diff, h, diffSpecRows, Nat.zero_add, decide_eq_true_iff]

/-- C9: the compiler invoker maps a missing compiler binary to the
distinct not-found message, a non-zero exit within the timeout to a
failure carrying the captured compiler stderr, a timeout to the
timed-out message (after killing the child), and a zero exit to the
executable path (the source stem joined under the scratch directory
with the `.o` suffix) paired with the elapsed compile time. -/
theorem C9_compile_outcomes (source_stem tempdir_path : String) (compile_timeout : Nat)
    (compiler_stderr : String) (elapsed : ℚ) :
    (compile_cpp source_stem tempdir_path compile_timeout .errNotFound compiler_stderr elapsed
        = some (.error "The compiler was not found!")) ∧
      (∀ c : Int, c ≠ 0 →
        compile_cpp source_stem tempdir_path compile_timeout (.spawned (some (.code c)))
            compiler_stderr elapsed
          = some (.error compiler_stderr)) ∧
      (compile_cpp source_stem tempdir_path compile_timeout (.spawned none)
          compiler_stderr elapsed
        = some (.error "Compilation timed out")) ∧
      (compile_cpp source_stem tempdir_path compile_timeout (.spawned (some (.code 0)))
          compiler_stderr elapsed
        = some (.ok (tempdir_path ++ "/" ++ source_stem ++ ".o", elapsed))) := by
  refine ⟨rfl, fun c hc => ?_, rfl, rfl⟩
  simp [compile_cpp, hc]

theorem C9_compile_outcomes_witness :
    compile_cpp "main" "tmp" 30 (.spawned (some (.code 1))) "boom" 2
      = some (.error "boom") :=
  (C9_compile_outcomes "main" "tmp" 30 "boom" 2).2.1 1 (by decide)

/-- C10: in the no-checker path, when the program run succeeds but the
reference output file is missing, the run-one-test operation returns the
`NoOutputFile` verdict paired with a fresh `ExecutionResult` of zero
elapsed time and no memory measurement — the measured time of the run
(`env.elapsed`, arbitrary here) is discarded. -/
theorem C10_missing_reference_output (test_name out : String) (env : TestEnv) (pool : Pool)
    (hsio : env.use_sio2jail = false) (hwait : env.wait = some (.code 0))
    (hread : env.testOutputRead = some out) (hchk : env.checkerRun = none)
    (href : env.refOutput = none)
    (hne : pool.items ≠ []) (hcap : pool.items.length ≤ pool.capacity) :
    ∃ pool', run_test test_name env pool
        = some ((.NoOutputFile test_name,
            { time_seconds := 0, memory_kilobytes := none }), pool') := by
  obtain ⟨x, tl, hxt⟩ : ∃ x tl, pool.items = x :: tl := by
    cases hi : pool.items with
    | nil => exact absurd hi hne
    | cons y l => exact ⟨y, l, rfl⟩
  have hlt : tl.length < pool.capacity := by
    rw [hxt] at hcap
    simpa [Nat.succ_le_iff] using hcap
  refine ⟨{ capacity := pool.capacity, items := tl ++ [x] }, ?_⟩
  simp [run_test, dispatch_generate, generate_output_default, no_checker_compare,
    Pool.pop, Pool.push, hxt, hsio, hwait, hread, hchk, href, hlt]

def envC10 : TestEnv :=
  { use_sio2jail := false, memory_limit := 0, timeout := 5, wait := some (.code 0),
    elapsed := 7, sio2jailStderr := "", sio2jailReport := "",
    testOutputRead := some "x\n", refOutput := none, checkerRun := none }

theorem C10_missing_reference_output_witness :
    ∃ pool', run_test "t" envC10 { capacity := 2, items := ["p", "q"] }
        = some ((.NoOutputFile "t", { time_seconds := 0, memory_kilobytes := none }), pool') :=
  C10_missing_reference_output "t" "x\n" envC10 { capacity := 2, items := ["p", "q"] }
    rfl rfl rfl rfl rfl (by decide) (by decide)

end Toster
